import Mathlib

/-
Verification of pkg/catalogsourceconfig/manifest.go (operator-marketplace):
the manifest-materialization engine that converts a SingleOperatorManifest
into an on-disk operator-registry manifest tree.

The file system is modelled as an explicit state: a list of directories and a
list of files, each carrying the permission mode it was created with.  Paths
are lists of components (filepath.Join of a directory and a name is list
append of one component).  Every file-system primitive of the Go standard
library used by manifest.go (os.Mkdir, ioutil.WriteFile, os.RemoveAll) is
given its documented semantics on that state; permission checks use the owner
write bit of the parent directory mode.
-/

namespace OperatorManifest

/-- A file-system path, as the list of its components. The empty list models
the empty string path. -/
abbrev Path := List String

/-- Rendering of a path into the string form used inside error messages. -/
def Path.render (p : Path) : String := String.intercalate "/" p

/-- The modelled file system: directories and files with their modes.
Files also carry their content. -/
structure FS where
  dirs : List (Path × Nat)
  files : List (Path × String × Nat)
deriving DecidableEq, Repr

/-- Mode of the directory at a path, if one exists. -/
def FS.findDir (fs : FS) (p : Path) : Option Nat :=
  (fs.dirs.find? (fun d => decide (d.1 = p))).map (fun d => d.2)

/-- Content and mode of the file at a path, if one exists. -/
def FS.findFile (fs : FS) (p : Path) : Option (String × Nat) :=
  (fs.files.find? (fun f => decide (f.1 = p))).map (fun f => f.2)

def FS.dirExists (fs : FS) (p : Path) : Bool := (fs.findDir p).isSome

def FS.fileExists (fs : FS) (p : Path) : Bool := (fs.findFile p).isSome

/-- Owner write permission bit of a Unix mode (0o200). -/
def modeWritable (m : Nat) : Bool := m.testBit 7

/-- Model of os.Mkdir: fails when the target path is already occupied, when
the parent directory does not exist, or when the parent directory is not
owner-writable; otherwise records the new directory with the requested
mode. The returned string is the rendering of the Go PathError. -/
def FS.mkdir (fs : FS) (p : Path) (mode : Nat) : FS × Option String :=
  if fs.dirExists p || fs.fileExists p then
    (fs, some ("mkdir " ++ Path.render p ++ ": file exists"))
  else
    match fs.findDir p.dropLast with
    | none => (fs, some ("mkdir " ++ Path.render p ++ ": no such file or directory"))
    | some m =>
      if modeWritable m then
        ({ fs with dirs := (p, mode) :: fs.dirs }, none)
      else
        (fs, some ("mkdir " ++ Path.render p ++ ": permission denied"))

/-- Model of ioutil.WriteFile: truncating write. An existing writable file is
replaced keeping its mode; a fresh file needs an existing owner-writable
parent directory and is created with the requested mode. -/
def FS.writeFile (fs : FS) (p : Path) (content : String) (mode : Nat) : FS × Option String :=
  if fs.dirExists p then
    (fs, some ("open " ++ Path.render p ++ ": is a directory"))
  else
    match fs.findFile p with
    | some f =>
      if modeWritable f.2 then
        ({ fs with files := fs.files.map (fun q => if q.1 = p then (p, content, q.2.2) else q) },
          none)
      else
        (fs, some ("open " ++ Path.render p ++ ": permission denied"))
    | none =>
      match fs.findDir p.dropLast with
      | none => (fs, some ("open " ++ Path.render p ++ ": no such file or directory"))
      | some m =>
        if modeWritable m then
          ({ fs with files := (p, content, mode) :: fs.files }, none)
        else
          (fs, some ("open " ++ Path.render p ++ ": permission denied"))

/-- Model of os.RemoveAll: removes the path and everything below it; a
non-existent path is a successful no-op, so no error component is needed. -/
def FS.removeAll (fs : FS) (p : Path) : FS :=
  { dirs := fs.dirs.filter (fun d => decide (¬ p <+: d.1)),
    files := fs.files.filter (fun f => decide (¬ p <+: f.1)) }

instance {ε α : Type} [DecidableEq ε] [DecidableEq α] : DecidableEq (Except ε α) := fun x y =>
  match x, y with
  | .error a, .error b =>
    if h : a = b then .isTrue (by rw [h]) else .isFalse (fun c => h (Except.error.inj c))
  | .error _, .ok _ => .isFalse (fun c => Except.noConfusion c)
  | .ok _, .error _ => .isFalse (fun c => Except.noConfusion c)
  | .ok a, .ok b =>
    if h : a = b then .isTrue (by rw [h]) else .isFalse (fun c => h (Except.ok.inj c))

/-- Modelled from the spec: the datastore package (not under src) keys
resource definitions by group, version and kind. -/
structure CRDKey where
  group : String
  version : String
  kind : String
deriving DecidableEq, Repr

/-- Modelled from the spec: the fmt rendering of a CustomResourceDefinitionKey
names all three components of the key. -/
def CRDKey.render (k : CRDKey) : String :=
  k.group ++ "/" ++ k.version ++ "/" ++ k.kind

/-- Modelled from the spec: datastore.CustomResourceDefinition, a named
document addressable by a composite key. goStr is its fmt rendering and
marshal the result of yaml.Marshal on it. -/
structure CustomResourceDefinition where
  name : String
  goStr : String
  key : CRDKey
  marshal : Except String String
deriving DecidableEq, Repr

/-- Modelled from the spec: datastore.ClusterServiceVersion. getVersion is
the result of GetVersion (a version string or an error);
getCustomResourceDefintions is the result of GetCustomResourceDefintions
(owned keys and required keys, or an error); marshal the result of
yaml.Marshal on it. -/
structure ClusterServiceVersion where
  name : String
  goStr : String
  getVersion : Except String String
  getCustomResourceDefintions : Except String (List CRDKey × List CRDKey)
  marshal : Except String String
deriving DecidableEq, Repr

/-- Modelled from the spec: datastore.SingleOperatorManifest with its package
identifier, its Package document (rendering and marshal result), its ordered
releases and its resource-definition collection. -/
structure SingleOperatorManifest where
  packageID : String
  packageGoStr : String
  packageMarshal : Except String String
  clusterServiceVersions : List ClusterServiceVersion
  customResourceDefinitions : List CustomResourceDefinition
deriving DecidableEq, Repr

/-- Insertion into the model of the Go map CustomResourceDefinitionMap:
overwrite the binding of an existing key, otherwise append. -/
def mapInsert (m : List (CRDKey × CustomResourceDefinition)) (k : CRDKey)
    (v : CustomResourceDefinition) : List (CRDKey × CustomResourceDefinition) :=
  match m with
  | [] => [(k, v)]
  | (k1, v1) :: rest => if k1 = k then (k, v) :: rest else (k1, v1) :: mapInsert rest k v

/-- Lookup in the model of the Go map. -/
def mapLookup (m : List (CRDKey × CustomResourceDefinition)) (k : CRDKey) :
    Option CustomResourceDefinition :=
  (m.find? (fun e => decide (e.1 = k))).map (fun e => e.2)

/-- The map built by the range loop of createCRDYAMLs: every definition of the
collection is inserted in order, so a later duplicate overwrites an earlier
one. -/
def buildCRDMap (crds : List CustomResourceDefinition) :
    List (CRDKey × CustomResourceDefinition) :=
  crds.foldl (fun m crd => mapInsert m crd.key crd) []

/-- The manifest struct of manifest.go: the package model, the caller-supplied
registry directory, and the mutable manifestDir field (versionDir is declared
by the source and never assigned). -/
structure ManifestState where
  singleManifest : SingleOperatorManifest
  registryDir : Path
  manifestDir : Path
  versionDir : Path
deriving DecidableEq, Repr

/-- NewManifest: both mutable directory fields start as the empty string. -/
def NewManifest (sm : SingleOperatorManifest) (registryDir : Path) : ManifestState :=
  { singleManifest := sm, registryDir := registryDir, manifestDir := [], versionDir := [] }

/-- A builder together with the file system it acts on. -/
structure World where
  b : ManifestState
  fs : FS
deriving DecidableEq, Repr

/-- createDir of manifest.go: os.Mkdir with mode 0700, wrapping any error with
the underlying error and the target path. -/
def createDir (fs : FS) (dir : Path) : FS × Option String :=
  match fs.mkdir dir 448 with
  | (fs1, some e) => (fs1, some ("Error " ++ e ++ " creating " ++ Path.render dir ++ " directory"))
  | (fs1, none) => (fs1, none)

/-- createYAML of manifest.go: yaml.Marshal then ioutil.WriteFile with mode
0666, wrapping errors as the source does (the marshal message interpolates
the object and the error in the order the source passes them). -/
def createYAML (fs : FS) (objStr : String) (marshal : Except String String) (file : Path) :
    FS × Option String :=
  match marshal with
  | .error e => (fs, some ("Error " ++ objStr ++ " marshaling " ++ e ++ " into YAML"))
  | .ok raw =>
    match fs.writeFile file raw 438 with
    | (fs1, some e) => (fs1, some ("Error " ++ e ++ " creating " ++ Path.render file ++ " file"))
    | (fs1, none) => (fs1, none)

/-- createManifestDir: set manifestDir to registryDir/packageID, then create
that directory. The field is assigned before the creation attempt. -/
def createManifestDir (w : World) : World × Option String :=
  let md := w.b.registryDir ++ [w.b.singleManifest.packageID]
  match createDir w.fs md with
  | (fs1, e) => (⟨{ w.b with manifestDir := md }, fs1⟩, e)

/-- createPackageYAML: write the package document at
manifestDir/packageID.package.yaml. -/
def createPackageYAML (w : World) : World × Option String :=
  match createYAML w.fs w.b.singleManifest.packageGoStr w.b.singleManifest.packageMarshal
      (w.b.manifestDir ++ [w.b.singleManifest.packageID ++ ".package.yaml"]) with
  | (fs1, e) => (⟨w.b, fs1⟩, e)

/-- The error of createBundleDir when GetVersion yields the empty string. -/
def missingVersionErr : String := "Unable to create bundle dir as CSV is missing version"

/-- createBundleDir: resolve the version; an error or an empty version aborts
without touching the file system; otherwise create manifestDir/version. The
bundle directory path is returned even when its creation fails, exactly as
the source returns (bundleDir, createDir(bundleDir)). -/
def createBundleDir (w : World) (csv : ClusterServiceVersion) : World × Path × Option String :=
  match csv.getVersion with
  | .error e => (w, [], some e)
  | .ok v =>
    if v = "" then (w, [], some missingVersionErr)
    else
      match createDir w.fs (w.b.manifestDir ++ [v]) with
      | (fs1, e) => (⟨w.b, fs1⟩, w.b.manifestDir ++ [v], e)

/-- createCRDYAML: write one resource definition at
bundleDir/name.crd.yaml. -/
def createCRDYAML (w : World) (crd : CustomResourceDefinition) (bundleDir : Path) :
    World × Option String :=
  match createYAML w.fs crd.goStr crd.marshal (bundleDir ++ [crd.name ++ ".crd.yaml"]) with
  | (fs1, e) => (⟨w.b, fs1⟩, e)

/-- The error of createCRDYAMLs for an owned key absent from the map. -/
def crdNotFoundErr (k : CRDKey) (csvName : String) : String :=
  "Owned CRD " ++ CRDKey.render k ++ " for CSV " ++ csvName ++ " not found"

/-- The range loop of createCRDYAMLs over the owned keys: an unresolved key or
a failed write aborts with that error; otherwise all owned definitions are
written in order. -/
def createCRDYAMLsLoop (crdMap : List (CRDKey × CustomResourceDefinition)) (csvName : String)
    (bundleDir : Path) : List CRDKey → World → World × Option String
  | [], w => (w, none)
  | k :: ks, w =>
    match mapLookup crdMap k with
    | none => (w, some (crdNotFoundErr k csvName))
    | some crd =>
      match createCRDYAML w crd bundleDir with
      | (w1, some e) => (w1, some e)
      | (w1, none) => createCRDYAMLsLoop crdMap csvName bundleDir ks w1

/-- createCRDYAMLs: obtain the owned keys (the required keys are discarded),
build the key map from the package collection, then run the loop. -/
def createCRDYAMLs (w : World) (csv : ClusterServiceVersion) (bundleDir : Path) :
    World × Option String :=
  match csv.getCustomResourceDefintions with
  | .error e => (w, some e)
  | .ok (ownedCRDKeys, _) =>
    createCRDYAMLsLoop (buildCRDMap w.b.singleManifest.customResourceDefinitions) csv.name
      bundleDir ownedCRDKeys w

/-- createCSVYAML: write the release descriptor at
bundleDir/name.csv.yaml. -/
def createCSVYAML (w : World) (csv : ClusterServiceVersion) (bundleDir : Path) :
    World × Option String :=
  match createYAML w.fs csv.goStr csv.marshal (bundleDir ++ [csv.name ++ ".csv.yaml"]) with
  | (fs1, e) => (⟨w.b, fs1⟩, e)

/-- createBundle: bundle directory, then the owned definition files, then the
release descriptor, each step aborting the bundle on error. -/
def createBundle (w : World) (csv : ClusterServiceVersion) : World × Option String :=
  match createBundleDir w csv with
  | (w1, _, some e) => (w1, some e)
  | (w1, bundleDir, none) =>
    match createCRDYAMLs w1 csv bundleDir with
    | (w2, some e) => (w2, some e)
    | (w2, none) => createCSVYAML w2 csv bundleDir

/-- The range loop of createBundles: the source calls b.createBundle(csv) and
discards its result, so only the state is threaded. -/
def createBundlesLoop : List ClusterServiceVersion → World → World
  | [], w => w
  | csv :: rest, w => createBundlesLoop rest (createBundle w csv).1

/-- createBundles: runs the loop over every release; its named error return is
never assigned, so the returned error is always nil. -/
def createBundles (w : World) : World × Option String :=
  (createBundlesLoop w.b.singleManifest.clusterServiceVersions w, none)

/-- Create: manifest directory, package document, bundles, returning at the
first error surfaced by those steps. -/
def create (w : World) : World × Option String :=
  match createManifestDir w with
  | (w1, some e) => (w1, some e)
  | (w1, none) =>
    match createPackageYAML w1 with
    | (w2, some e) => (w2, some e)
    | (w2, none) => createBundles w2

/-- Delete: a no-op success while manifestDir is still the empty string,
otherwise os.RemoveAll of manifestDir. -/
def delete (w : World) : World × Option String :=
  if w.b.manifestDir = [] then (w, none)
  else (⟨w.b, w.fs.removeAll w.b.manifestDir⟩, none)

/-! Concrete fixtures used by the theorems below, shaped after the etcd
package of the repository's test data. -/

def kEx : CRDKey := ⟨"etcd.database.coreos.com", "v1beta2", "EtcdCluster"⟩

def crdEx : CustomResourceDefinition :=
  ⟨"etcdclusters.etcd.database.coreos.com", "crdobj", kEx, .ok "CRDRAW"⟩

def csvEx : ClusterServiceVersion :=
  ⟨"etcdoperator.v0.9.2", "csvobj", .ok "0.9.2", .ok ([kEx], []), .ok "CSVRAW"⟩

def smEx : SingleOperatorManifest := ⟨"etcd", "pkgobj", .ok "PKGRAW", [csvEx], [crdEx]⟩

def fs0 : FS := ⟨[(["tmp"], 448)], []⟩

def wEx : World := ⟨NewManifest smEx ["tmp"], fs0⟩

/-- A release whose GetVersion yields the empty string. -/
def csvBad : ClusterServiceVersion := ⟨"bad.v1", "badobj", .ok "", .ok ([], []), .ok "BADRAW"⟩

def smBug : SingleOperatorManifest := ⟨"etcd", "pkgobj", .ok "PKGRAW", [csvBad, csvEx], [crdEx]⟩

def wBug : World := ⟨NewManifest smBug ["tmp"], fs0⟩

/-- Two releases that share the version 1.0.0 and own no resource
definitions. -/
def csvA : ClusterServiceVersion := ⟨"a", "aobj", .ok "1.0.0", .ok ([], []), .ok "ARAW"⟩

def csvB : ClusterServiceVersion := ⟨"b", "bobj", .ok "1.0.0", .ok ([], []), .ok "BRAW"⟩

def smDup : SingleOperatorManifest := ⟨"etcd", "pkgobj", .ok "PKGRAW", [csvA, csvB], []⟩

def wDup : World := ⟨NewManifest smDup ["tmp"], fs0⟩

/-- Claim C1 (code bug in createBundles): the range loop of createBundles
discards the result of createBundle, so createBundles returns nil
unconditionally; on a package whose first release fails bundle
materialization (empty version), Create still returns success and the later
release is materialized anyway, contradicting the Manifest interface
contract of returning the first encountered error. -/
theorem c1_bundle_errors_swallowed :
    (∀ w : World, (createBundles w).2 = none) ∧
    (∀ w : World, (createBundle w csvBad).2 = some missingVersionErr) ∧
    (create wBug).2 = none ∧
    (create wBug).1.fs.fileExists ["tmp", "etcd", "0.9.2", "etcdoperator.v0.9.2.csv.yaml"]
      = true := by
  refine ⟨fun _ => rfl, fun w => ?_, by decide, by decide⟩
  simp [createBundle, createBundleDir, csvBad]

/-- Claim C2 (code bug, same root cause as C1): a package in which every
release has the non-empty version 1.0.0 and every owned reference resolves
(none are owned), yet Create returns success while the release descriptor of
the second release is missing: the duplicate bundle directory makes the
second createBundle fail, and createBundles drops that error. -/
theorem c2_create_succeeds_with_missing_release_file :
    (∀ csv ∈ smDup.clusterServiceVersions, csv.getVersion = Except.ok "1.0.0") ∧
    (∀ csv ∈ smDup.clusterServiceVersions,
      csv.getCustomResourceDefintions = Except.ok ([], [])) ∧
    (create wDup).2 = none ∧
    (create wDup).1.fs.fileExists ["tmp", "etcd", "1.0.0", "a.csv.yaml"] = true ∧
    (create wDup).1.fs.fileExists ["tmp", "etcd", "1.0.0", "b.csv.yaml"] = false := by
  refine ⟨by decide, by decide, by decide, by decide, by decide⟩

/-- Claim C4: a release whose version resolves to the empty string, or whose
version lookup fails, makes createBundleDir fail without touching the world;
no bundle directory path is produced, and the empty-string case carries the
descriptive missing-version error of the source. -/
theorem c4_missing_version_aborts (w : World) (csv : ClusterServiceVersion)
    (h : csv.getVersion = Except.ok "" ∨ ∃ e, csv.getVersion = Except.error e) :
    (createBundleDir w csv).1 = w ∧ (createBundleDir w csv).2.1 = [] ∧
      ∃ e, (createBundleDir w csv).2.2 = some e ∧
        (csv.getVersion = Except.ok "" → e = missingVersionErr) := by
  rcases h with h | ⟨e, h⟩ <;> simp [createBundleDir, h]

/-- Witness for C4 at the fixture release with the empty version. -/
theorem c4_missing_version_aborts_witness :
    (createBundleDir wEx csvBad).1 = wEx ∧ (createBundleDir wEx csvBad).2.1 = [] ∧
      ∃ e, (createBundleDir wEx csvBad).2.2 = some e ∧
        (csvBad.getVersion = Except.ok "" → e = missingVersionErr) :=
  c4_missing_version_aborts wEx csvBad (Or.inl rfl)

/-- Claim C6 counterexample: the serializer writes files with mode 0666
(438), whose group and other write bits (bits 4 and 1) are set, so written
files are not group/other read-only as claimed. -/
theorem c6_files_not_read_only :
    ((createYAML fs0 "obj" (.ok "raw") ["tmp", "f.yaml"]).1.findFile ["tmp", "f.yaml"]
      = some ("raw", 438)) ∧
    Nat.testBit 438 4 = true ∧ Nat.testBit 438 1 = true := by decide

/-- Claim C6 as amended: every directory created by the builder is created
with mode 0700 (448, owner rwx only), and every file freshly created by the
serializer is created with mode 0666 (438), readable and writable by owner,
group and other. -/
theorem c6_modes_amended (fs : FS) (dir file : Path) (objStr raw : String)
    (h1 : (createDir fs dir).2 = none)
    (h2 : (createYAML fs objStr (Except.ok raw) file).2 = none)
    (h3 : fs.findFile file = none) :
    (createDir fs dir).1.findDir dir = some 448 ∧
    (createYAML fs objStr (Except.ok raw) file).1.findFile file = some (raw, 438) := by
  constructor
  · rcases hmk : fs.mkdir dir 448 with ⟨fs1, e⟩
    simp only [createDir, hmk] at h1 ⊢
    cases e with
    | some e => simp at h1
    | none =>
      simp only [FS.mkdir] at hmk
      split at hmk
      · simp at hmk
      · split at hmk
        · simp at hmk
        · split at hmk
          · simp only [Prod.mk.injEq, and_true] at hmk
            subst hmk
            simp [FS.findDir]
          · simp at hmk
  · rcases hw : fs.writeFile file raw 438 with ⟨fs1, e⟩
    simp only [createYAML, hw] at h2 ⊢
    cases e with
    | some e => simp at h2
    | none =>
      simp only [FS.writeFile, h3] at hw
      split at hw
      · simp at hw
      · split at hw
        · simp at hw
        · split at hw
          · simp only [Prod.mk.injEq, and_true] at hw
            subst hw
            simp [FS.findFile]
          · simp at hw

/-- Witness for the amended C6 on the concrete file system. -/
theorem c6_modes_amended_witness :
    (createDir fs0 ["tmp", "d"]).1.findDir ["tmp", "d"] = some 448 ∧
    (createYAML fs0 "obj" (Except.ok "raw") ["tmp", "f.yaml"]).1.findFile ["tmp", "f.yaml"]
      = some ("raw", 438) :=
  c6_modes_amended fs0 ["tmp", "d"] ["tmp", "f.yaml"] "obj" "raw" (by decide) (by decide)
    (by decide)

/-! Helper lemmas: the builder fields other than manifestDir are never
mutated, and manifestDir is set once by createManifestDir. -/

theorem createCRDYAML_b (w : World) (crd : CustomResourceDefinition) (bd : Path) :
    (createCRDYAML w crd bd).1.b = w.b := rfl

theorem createCSVYAML_b (w : World) (csv : ClusterServiceVersion) (bd : Path) :
    (createCSVYAML w csv bd).1.b = w.b := rfl

theorem createPackageYAML_b (w : World) : (createPackageYAML w).1.b = w.b := rfl

theorem createManifestDir_b (w : World) :
    (createManifestDir w).1.b
      = { w.b with manifestDir := w.b.registryDir ++ [w.b.singleManifest.packageID] } := rfl

theorem createBundleDir_b (w : World) (csv : ClusterServiceVersion) :
    (createBundleDir w csv).1.b = w.b := by
  cases h : csv.getVersion with
  | error e => simp [createBundleDir, h]
  | ok v =>
    by_cases hv : v = ""
    · simp [createBundleDir, h, hv]
    · simp [createBundleDir, h, hv]

theorem createCRDYAMLsLoop_b (M : List (CRDKey × CustomResourceDefinition)) (cn : String)
    (bd : Path) : ∀ (ks : List CRDKey) (w : World),
    (createCRDYAMLsLoop M cn bd ks w).1.b = w.b := by
  intro ks
  induction ks with
  | nil => intro w; rfl
  | cons k ks ih =>
    intro w
    simp only [createCRDYAMLsLoop]
    cases mapLookup M k with
    | none => rfl
    | some crd =>
      have hb := createCRDYAML_b w crd bd
      rcases h : createCRDYAML w crd bd with ⟨w1, e⟩
      rw [h] at hb
      cases e with
      | some e => simp only [h]; exact hb
      | none => simp only [h]; exact (ih w1).trans hb

theorem createCRDYAMLs_b (w : World) (csv : ClusterServiceVersion) (bd : Path) :
    (createCRDYAMLs w csv bd).1.b = w.b := by
  cases h : csv.getCustomResourceDefintions with
  | error e => simp [createCRDYAMLs, h]
  | ok p =>
    rcases p with ⟨owned, req⟩
    simp only [createCRDYAMLs, h]
    exact createCRDYAMLsLoop_b _ _ _ owned w

theorem createBundle_b (w : World) (csv : ClusterServiceVersion) :
    (createBundle w csv).1.b = w.b := by
  have h1 := createBundleDir_b w csv
  rcases hd : createBundleDir w csv with ⟨w1, bd, e⟩
  rw [hd] at h1
  cases e with
  | some e => simp only [createBundle, hd]; exact h1
  | none =>
    have h2 := createCRDYAMLs_b w1 csv bd
    rcases hc : createCRDYAMLs w1 csv bd with ⟨w2, e2⟩
    rw [hc] at h2
    cases e2 with
    | some e => simp only [createBundle, hd, hc]; exact h2.trans h1
    | none =>
      simp only [createBundle, hd, hc]
      exact (createCSVYAML_b w2 csv bd).trans (h2.trans h1)

theorem createBundlesLoop_b : ∀ (csvs : List ClusterServiceVersion) (w : World),
    (createBundlesLoop csvs w).b = w.b := by
  intro csvs
  induction csvs with
  | nil => intro w; rfl
  | cons csv rest ih =>
    intro w
    simp only [createBundlesLoop]
    exact (ih _).trans (createBundle_b w csv)

/-- After create, whether it failed or not, manifestDir holds
registryDir/packageID and no other builder field changed. -/
theorem create_b (w : World) :
    (create w).1.b
      = { w.b with manifestDir := w.b.registryDir ++ [w.b.singleManifest.packageID] } := by
  have h0 := createManifestDir_b w
  rcases h1 : createManifestDir w with ⟨w1, e1⟩
  rw [h1] at h0
  cases e1 with
  | some e => simp only [create, h1]; exact h0
  | none =>
    have h2 := createPackageYAML_b w1
    rcases h3 : createPackageYAML w1 with ⟨w2, e2⟩
    rw [h3] at h2
    cases e2 with
    | some e => simp only [create, h1, h3]; exact h2.trans h0
    | none =>
      simp only [create, h1, h3, createBundles]
      exact (createBundlesLoop_b _ _).trans (h2.trans h0)

/-! Helper lemmas about removeAll. -/

theorem removeAll_findDir (fs : FS) (r p : Path) (h : r <+: p) :
    (fs.removeAll r).findDir p = none := by
  simp only [FS.removeAll, FS.findDir]
  rw [Option.map_eq_none', List.find?_eq_none]
  intro x hx
  rw [List.mem_filter] at hx
  simp only [decide_eq_true_eq] at hx ⊢
  intro hxp
  exact hx.2 (hxp ▸ h)

theorem removeAll_findFile (fs : FS) (r p : Path) (h : r <+: p) :
    (fs.removeAll r).findFile p = none := by
  simp only [FS.removeAll, FS.findFile]
  rw [Option.map_eq_none', List.find?_eq_none]
  intro x hx
  rw [List.mem_filter] at hx
  simp only [decide_eq_true_eq] at hx ⊢
  intro hxp
  exact hx.2 (hxp ▸ h)

/-- Delete never reports an error. -/
theorem delete_err (w : World) : (delete w).2 = none := by
  unfold delete
  split <;> rfl

/-- Claim C7: Delete on a freshly constructed builder is a successful no-op
that leaves the world untouched; Delete never errors, so two consecutive
calls never error; and after a successful Create, Delete removes the package
root directory and everything under it. -/
theorem c7_delete_lifecycle (sm : SingleOperatorManifest) (rd : Path) (fs : FS) (w : World)
    (hc : (create w).2 = none) :
    delete ⟨NewManifest sm rd, fs⟩ = (⟨NewManifest sm rd, fs⟩, none) ∧
    (delete w).2 = none ∧
    (delete ((delete w).1)).2 = none ∧
    ∀ p : Path, (w.b.registryDir ++ [w.b.singleManifest.packageID]) <+: p →
      (delete ((create w).1)).1.fs.dirExists p = false ∧
      (delete ((create w).1)).1.fs.fileExists p = false := by
  refine ⟨by simp [delete, NewManifest], delete_err w, delete_err _, ?_⟩
  intro p hp
  have hb := create_b w
  have hmd : ((create w).1).b.manifestDir
      = w.b.registryDir ++ [w.b.singleManifest.packageID] := by rw [hb]
  have hne : ((create w).1).b.manifestDir ≠ [] := by
    rw [hmd]; simp
  have hd : delete ((create w).1)
      = (⟨((create w).1).b, ((create w).1).fs.removeAll ((create w).1).b.manifestDir⟩, none) := by
    simp [delete, hne]
  rw [hd]
  simp only [FS.dirExists, FS.fileExists, hmd]
  rw [removeAll_findDir _ _ _ hp, removeAll_findFile _ _ _ hp]
  exact ⟨rfl, rfl⟩

/-- Witness for C7 on the etcd fixture, checking that the release directory
and the release descriptor are gone after Delete. -/
theorem c7_delete_lifecycle_witness :
    (delete ((create wEx).1)).1.fs.dirExists ["tmp", "etcd", "0.9.2"] = false ∧
    (delete ((create wEx).1)).1.fs.fileExists
      ["tmp", "etcd", "0.9.2", "etcdoperator.v0.9.2.csv.yaml"] = false :=
  ⟨((c7_delete_lifecycle smEx ["tmp"] fs0 wEx (by decide)).2.2.2
      ["tmp", "etcd", "0.9.2"] (by decide)).1,
   ((c7_delete_lifecycle smEx ["tmp"] fs0 wEx (by decide)).2.2.2
      ["tmp", "etcd", "0.9.2", "etcdoperator.v0.9.2.csv.yaml"] (by decide)).2⟩

/-! Helper lemmas: directories are never removed by Create's primitives. -/

/-- The package root directory targeted by createManifestDir. -/
def packageRoot (w : World) : Path := w.b.registryDir ++ [w.b.singleManifest.packageID]

theorem writeFile_dirs (fs : FS) (p : Path) (c : String) (m : Nat) :
    ((fs.writeFile p c m).1).dirs = fs.dirs := by
  unfold FS.writeFile
  split
  · rfl
  · split
    · split <;> rfl
    · split
      · rfl
      · split <;> rfl

theorem dirExists_congr (fs1 fs2 : FS) (q : Path) (h : fs1.dirs = fs2.dirs) :
    fs1.dirExists q = fs2.dirExists q := by
  simp [FS.dirExists, FS.findDir, h]

theorem mkdir_dirExists (fs : FS) (p : Path) (m : Nat) (q : Path)
    (h : fs.dirExists q = true) : ((fs.mkdir p m).1).dirExists q = true := by
  unfold FS.mkdir
  split
  · exact h
  · split
    · exact h
    · split
      · simp only [FS.dirExists, FS.findDir, Option.isSome_map'] at h ⊢
        rw [List.find?_cons]
        split
        · rfl
        · exact h
      · exact h

theorem createDir_fs (fs : FS) (dir : Path) :
    (createDir fs dir).1 = (fs.mkdir dir 448).1 := by
  rcases hm : fs.mkdir dir 448 with ⟨fs1, e⟩
  cases e <;> simp [createDir, hm]

theorem createYAML_dirs (fs : FS) (o : String) (mar : Except String String) (f : Path) :
    ((createYAML fs o mar f).1).dirs = fs.dirs := by
  cases mar with
  | error e => rfl
  | ok raw =>
    have hd := writeFile_dirs fs f raw 438
    rcases hw : fs.writeFile f raw 438 with ⟨fs1, e⟩
    rw [hw] at hd
    cases e <;> simp [createYAML, hw] <;> exact hd

theorem createDir_dirExists (fs : FS) (dir q : Path) (h : fs.dirExists q = true) :
    ((createDir fs dir).1).dirExists q = true := by
  rw [createDir_fs]
  exact mkdir_dirExists fs dir 448 q h

theorem createBundleDir_dirExists (w : World) (csv : ClusterServiceVersion) (q : Path)
    (h : w.fs.dirExists q = true) : ((createBundleDir w csv).1).fs.dirExists q = true := by
  cases hv : csv.getVersion with
  | error e => simp [createBundleDir, hv]; exact h
  | ok v =>
    by_cases hve : v = ""
    · simp [createBundleDir, hv, hve]; exact h
    · have := createDir_dirExists w.fs (w.b.manifestDir ++ [v]) q h
      rcases hc : createDir w.fs (w.b.manifestDir ++ [v]) with ⟨fs1, e⟩
      rw [hc] at this
      simp only [createBundleDir, hv, hve, if_neg hve, hc]
      exact this

theorem createCRDYAML_dirExists (w : World) (crd : CustomResourceDefinition) (bd q : Path)
    (h : w.fs.dirExists q = true) : ((createCRDYAML w crd bd).1).fs.dirExists q = true := by
  have hd := createYAML_dirs w.fs crd.goStr crd.marshal (bd ++ [crd.name ++ ".crd.yaml"])
  rcases hc : createYAML w.fs crd.goStr crd.marshal (bd ++ [crd.name ++ ".crd.yaml"])
    with ⟨fs1, e⟩
  rw [hc] at hd
  have : fs1.dirExists q = w.fs.dirExists q := dirExists_congr fs1 w.fs q hd
  cases e <;> simp only [createCRDYAML, hc] <;> rw [this] <;> exact h

theorem createCSVYAML_dirExists (w : World) (csv : ClusterServiceVersion) (bd q : Path)
    (h : w.fs.dirExists q = true) : ((createCSVYAML w csv bd).1).fs.dirExists q = true := by
  have hd := createYAML_dirs w.fs csv.goStr csv.marshal (bd ++ [csv.name ++ ".csv.yaml"])
  rcases hc : createYAML w.fs csv.goStr csv.marshal (bd ++ [csv.name ++ ".csv.yaml"])
    with ⟨fs1, e⟩
  rw [hc] at hd
  have : fs1.dirExists q = w.fs.dirExists q := dirExists_congr fs1 w.fs q hd
  cases e <;> simp only [createCSVYAML, hc] <;> rw [this] <;> exact h

theorem createCRDYAMLsLoop_dirExists (M : List (CRDKey × CustomResourceDefinition))
    (cn : String) (bd : Path) : ∀ (ks : List CRDKey) (w : World) (q : Path),
    w.fs.dirExists q = true → ((createCRDYAMLsLoop M cn bd ks w).1).fs.dirExists q = true := by
  intro ks
  induction ks with
  | nil => intro w q h; exact h
  | cons k ks ih =>
    intro w q h
    simp only [createCRDYAMLsLoop]
    cases mapLookup M k with
    | none => exact h
    | some crd =>
      have hme := createCRDYAML_dirExists w crd bd q h
      rcases hc : createCRDYAML w crd bd with ⟨w1, e⟩
      rw [hc] at hme
      cases e with
      | some e => simpa only [hc] using hme
      | none => simp only [hc]; exact ih w1 q hme

theorem createCRDYAMLs_dirExists (w : World) (csv : ClusterServiceVersion) (bd q : Path)
    (h : w.fs.dirExists q = true) : ((createCRDYAMLs w csv bd).1).fs.dirExists q = true := by
  cases hk : csv.getCustomResourceDefintions with
  | error e => simp [createCRDYAMLs, hk]; exact h
  | ok p =>
    rcases p with ⟨owned, req⟩
    simp only [createCRDYAMLs, hk]
    exact createCRDYAMLsLoop_dirExists _ _ _ owned w q h

theorem createBundle_dirExists (w : World) (csv : ClusterServiceVersion) (q : Path)
    (h : w.fs.dirExists q = true) : ((createBundle w csv).1).fs.dirExists q = true := by
  have h1 := createBundleDir_dirExists w csv q h
  rcases hd : createBundleDir w csv with ⟨w1, bd, e⟩
  rw [hd] at h1
  cases e with
  | some e => simpa only [createBundle, hd] using h1
  | none =>
    have h2 := createCRDYAMLs_dirExists w1 csv bd q h1
    rcases hc : createCRDYAMLs w1 csv bd with ⟨w2, e2⟩
    rw [hc] at h2
    cases e2 with
    | some e => simpa only [createBundle, hd, hc] using h2
    | none =>
      simp only [createBundle, hd, hc]
      exact createCSVYAML_dirExists w2 csv bd q h2

theorem createBundlesLoop_dirExists : ∀ (csvs : List ClusterServiceVersion) (w : World)
    (q : Path), w.fs.dirExists q = true → (createBundlesLoop csvs w).fs.dirExists q = true := by
  intro csvs
  induction csvs with
  | nil => intro w q h; exact h
  | cons csv rest ih =>
    intro w q h
    exact ih _ q (createBundle_dirExists w csv q h)

theorem createDir_success_dirExists (fs : FS) (dir : Path)
    (h : (createDir fs dir).2 = none) : ((createDir fs dir).1).dirExists dir = true := by
  rcases hm : fs.mkdir dir 448 with ⟨fs1, e⟩
  cases e with
  | some e => simp [createDir, hm] at h
  | none =>
    simp only [createDir, hm]
    simp only [FS.mkdir] at hm
    split at hm
    · simp at hm
    · split at hm
      · simp at hm
      · split at hm
        · simp only [Prod.mk.injEq, and_true] at hm
          subst hm
          simp [FS.dirExists, FS.findDir]
        · simp at hm

/-- A successful Create leaves the package root directory present. -/
theorem create_root_dirExists (w : World) (h : (create w).2 = none) :
    ((create w).1).fs.dirExists (w.b.registryDir ++ [w.b.singleManifest.packageID]) = true := by
  rcases h1 : createManifestDir w with ⟨w1, e1⟩
  cases e1 with
  | some e => simp [create, h1] at h
  | none =>
    have hfs : w1.fs = (createDir w.fs (w.b.registryDir ++ [w.b.singleManifest.packageID])).1 := by
      have : (createManifestDir w).1.fs
          = (createDir w.fs (w.b.registryDir ++ [w.b.singleManifest.packageID])).1 := rfl
      rw [h1] at this
      exact this
    have herr : (createDir w.fs (w.b.registryDir ++ [w.b.singleManifest.packageID])).2 = none := by
      have : (createManifestDir w).2
          = (createDir w.fs (w.b.registryDir ++ [w.b.singleManifest.packageID])).2 := rfl
      rw [h1] at this
      exact this.symm
    have hroot : w1.fs.dirExists (w.b.registryDir ++ [w.b.singleManifest.packageID]) = true := by
      rw [hfs]
      exact createDir_success_dirExists _ _ herr
    have h2p := createPackageYAML_b w1
    have h2fs : (createPackageYAML w1).1.fs.dirs = w1.fs.dirs := createYAML_dirs _ _ _ _
    rcases h3 : createPackageYAML w1 with ⟨w2, e2⟩
    rw [h3] at h2fs
    cases e2 with
    | some e => simp [create, h1, h3] at h
    | none =>
      simp only [create, h1, h3, createBundles]
      apply createBundlesLoop_dirExists
      rw [dirExists_congr w2.fs w1.fs _ h2fs]
      exact hroot

/-- Any mkdir failure at the package root makes Create fail with the wrapped
error and leave the file system untouched. -/
theorem create_of_root_fail (w : World) (s : String)
    (hm : w.fs.mkdir (w.b.registryDir ++ [w.b.singleManifest.packageID]) 448
      = (w.fs, some s)) :
    (create w).2 = some ("Error " ++ s ++ " creating "
      ++ Path.render (w.b.registryDir ++ [w.b.singleManifest.packageID]) ++ " directory")
    ∧ (create w).1.fs = w.fs := by
  have hcd : createDir w.fs (w.b.registryDir ++ [w.b.singleManifest.packageID])
      = (w.fs, some ("Error " ++ s ++ " creating "
          ++ Path.render (w.b.registryDir ++ [w.b.singleManifest.packageID]) ++ " directory")) := by
    simp [createDir, hm]
  have h1 : createManifestDir w
      = (⟨{ w.b with manifestDir := w.b.registryDir ++ [w.b.singleManifest.packageID] }, w.fs⟩,
         some ("Error " ++ s ++ " creating "
          ++ Path.render (w.b.registryDir ++ [w.b.singleManifest.packageID]) ++ " directory")) := by
    simp only [createManifestDir, hcd]
  simp [create, h1]

theorem mkdir_occupied (fs : FS) (p : Path) (m : Nat)
    (h : (fs.dirExists p || fs.fileExists p) = true) :
    fs.mkdir p m = (fs, some ("mkdir " ++ Path.render p ++ ": file exists")) := by
  unfold FS.mkdir
  rw [if_pos h]

theorem mkdir_bad_parent (fs : FS) (p : Path)
    (h : fs.findDir p.dropLast = none
        ∨ ∃ m, fs.findDir p.dropLast = some m ∧ modeWritable m = false) :
    ∃ s, fs.mkdir p 448 = (fs, some s) := by
  unfold FS.mkdir
  split
  · exact ⟨_, rfl⟩
  · rcases h with h | ⟨m, hm, hwr⟩
    · rw [h]
      exact ⟨_, rfl⟩
    · rw [hm]
      simp only [hwr, Bool.false_eq_true, if_false]
      exact ⟨_, rfl⟩

/-- Claim C8: against a non-existent or non-writable parent directory, the
very first directory creation of Create fails, Create returns that failure
wrapped with the underlying system error and the target path, and the file
system is left exactly as it was (no file or directory is created). -/
theorem c8_create_bad_parent (w : World)
    (h : w.fs.findDir w.b.registryDir = none
        ∨ ∃ m, w.fs.findDir w.b.registryDir = some m ∧ modeWritable m = false) :
    (w.fs.mkdir (packageRoot w) 448).2.isSome = true ∧
    (create w).2 = some ("Error " ++ (w.fs.mkdir (packageRoot w) 448).2.getD "" ++ " creating "
      ++ Path.render (packageRoot w) ++ " directory") ∧
    (create w).1.fs = w.fs := by
  have hdrop : (packageRoot w).dropLast = w.b.registryDir := by
    simp [packageRoot]
  have hm : ∃ s, w.fs.mkdir (packageRoot w) 448 = (w.fs, some s) :=
    mkdir_bad_parent w.fs (packageRoot w) (by rw [hdrop]; exact h)
  rcases hm with ⟨s, hm⟩
  have hc := create_of_root_fail w s hm
  refine ⟨?_, ?_, hc.2⟩
  · simp only [packageRoot] at hm ⊢
    rw [hm]
    rfl
  · simp only [packageRoot] at hm ⊢
    rw [hc.1, hm]
    rfl

/-- Witness for C8: the parent directory nodir does not exist. -/
theorem c8_create_bad_parent_witness :
    ((⟨NewManifest smEx ["nodir"], fs0⟩ : World).fs.mkdir
        (packageRoot ⟨NewManifest smEx ["nodir"], fs0⟩) 448).2.isSome = true ∧
    (create ⟨NewManifest smEx ["nodir"], fs0⟩).2
      = some ("Error "
        ++ ((⟨NewManifest smEx ["nodir"], fs0⟩ : World).fs.mkdir
              (packageRoot ⟨NewManifest smEx ["nodir"], fs0⟩) 448).2.getD ""
        ++ " creating " ++ Path.render (packageRoot ⟨NewManifest smEx ["nodir"], fs0⟩)
        ++ " directory") ∧
    (create ⟨NewManifest smEx ["nodir"], fs0⟩).1.fs
      = (⟨NewManifest smEx ["nodir"], fs0⟩ : World).fs :=
  c8_create_bad_parent ⟨NewManifest smEx ["nodir"], fs0⟩ (Or.inl (by decide))

/-- Claim C9: when the package root path is already occupied, in particular
after a previous successful Create on the same builder state, Create fails at
the root-directory creation step with the file-exists error and changes
nothing on disk: it never overwrites or merges into an existing root. -/
theorem c9_existing_root_rejected (w : World)
    (h : w.fs.dirExists (packageRoot w) = true ∨ w.fs.fileExists (packageRoot w) = true
        ∨ ∃ w0 : World, (create w0).2 = none ∧ w = (create w0).1) :
    (create w).2 = some ("Error " ++ ("mkdir " ++ Path.render (packageRoot w) ++ ": file exists")
        ++ " creating " ++ Path.render (packageRoot w) ++ " directory")
    ∧ (create w).1.fs = w.fs := by
  have hocc : (w.fs.dirExists (packageRoot w) || w.fs.fileExists (packageRoot w)) = true := by
    rcases h with h | h | ⟨w0, hc, hw⟩
    · simp [h]
    · simp [h]
    · subst hw
      have hroot := create_root_dirExists w0 hc
      have hpr : packageRoot ((create w0).1) = packageRoot w0 := by
        simp [packageRoot, create_b w0]
      rw [hpr]
      rw [show (packageRoot w0) = w0.b.registryDir ++ [w0.b.singleManifest.packageID] from rfl]
      rw [hroot]
      simp
  have hm := mkdir_occupied w.fs (packageRoot w) 448 hocc
  exact create_of_root_fail w _ hm

/-- Witness for C9: a second Create after a successful Create on the etcd
fixture. -/
theorem c9_existing_root_rejected_witness :
    (create ((create wEx).1)).2
      = some ("Error " ++ ("mkdir " ++ Path.render (packageRoot ((create wEx).1))
          ++ ": file exists") ++ " creating " ++ Path.render (packageRoot ((create wEx).1))
          ++ " directory")
    ∧ (create ((create wEx).1)).1.fs = ((create wEx).1).fs :=
  c9_existing_root_rejected ((create wEx).1) (Or.inr (Or.inr ⟨wEx, by decide, rfl⟩))

/-! Helper lemmas about the CRD map model. -/

theorem mapLookup_cons (k1 : CRDKey) (v1 : CustomResourceDefinition)
    (rest : List (CRDKey × CustomResourceDefinition)) (k : CRDKey) :
    mapLookup ((k1, v1) :: rest) k = if k1 = k then some v1 else mapLookup rest k := by
  by_cases h : k1 = k
  · simp [mapLookup, List.find?_cons, h]
  · simp [mapLookup, List.find?_cons, h]

theorem mapLookup_mapInsert (m : List (CRDKey × CustomResourceDefinition)) (k : CRDKey)
    (v : CustomResourceDefinition) (q : CRDKey) :
    mapLookup (mapInsert m k v) q = if k = q then some v else mapLookup m q := by
  induction m with
  | nil =>
    simp only [mapInsert]
    rw [mapLookup_cons]
  | cons e rest ih =>
    rcases e with ⟨k1, v1⟩
    by_cases h : k1 = k
    · subst h
      simp only [mapInsert]
      rw [if_pos trivial, mapLookup_cons, mapLookup_cons]
      by_cases hq : k1 = q <;> simp [hq]
    · simp only [mapInsert, if_neg h]
      rw [mapLookup_cons, mapLookup_cons, ih]
      by_cases hq : k1 = q
      · have : ¬ k = q := fun hkq => h (hq.trans hkq.symm)
        simp [hq, this]
      · simp [hq]

theorem foldl_mapInsert_lookup (k : CRDKey) : ∀ (crds : List CustomResourceDefinition)
    (m : List (CRDKey × CustomResourceDefinition)),
    mapLookup (crds.foldl (fun acc crd => mapInsert acc crd.key crd) m) k
      = match crds.reverse.find? (fun c => decide (c.key = k)) with
        | some c => some c
        | none => mapLookup m k := by
  intro crds
  induction crds with
  | nil => intro m; rfl
  | cons c rest ih =>
    intro m
    simp only [List.foldl_cons, List.reverse_cons]
    rw [ih, List.find?_append]
    cases hr : rest.reverse.find? (fun c => decide (c.key = k)) with
    | some x => rfl
    | none =>
      simp only [Option.none_orElse]
      rw [mapLookup_mapInsert]
      by_cases h : c.key = k
      · simp [List.find?_cons, h]
      · simp [List.find?_cons, h]

/-- Every error of the serializer wrapper starts with the Error prefix. -/
theorem createYAML_err_shape (fs : FS) (o : String) (mar : Except String String) (f : Path)
    (e : String) (h : (createYAML fs o mar f).2 = some e) : ∃ s, e = "Error " ++ s := by
  cases mar with
  | error me =>
    simp only [createYAML] at h
    refine ⟨o ++ (" marshaling " ++ (me ++ " into YAML")), ?_⟩
    have := h.symm
    injection this.symm with h2
    rw [← h2]
    simp [String.append_assoc]
  | ok raw =>
    rcases hw : fs.writeFile f raw 438 with ⟨fs1, we⟩
    cases we with
    | none => simp [createYAML, hw] at h
    | some we =>
      simp only [createYAML, hw] at h
      injection h with h2
      refine ⟨we ++ (" creating " ++ (Path.render f ++ " file")), ?_⟩
      rw [← h2]
      simp [String.append_assoc]

/-- A string starting with Error never coincides with the owned-CRD-not-found
message. -/
theorem error_ne_owned (s t : String) : ("Error " ++ s) ≠ ("Owned CRD " ++ t) := by
  intro h
  have hd : ("Error " ++ s).data = ("Owned CRD " ++ t).data := by rw [h]
  have h1 : "Error ".data = ['E', 'r', 'r', 'o', 'r', ' '] := rfl
  have h2 : "Owned CRD ".data = ['O', 'w', 'n', 'e', 'd', ' ', 'C', 'R', 'D', ' '] := rfl
  rw [String.data_append, String.data_append, h1, h2] at hd
  simp at hd

/-- The not-found message starts with Owned, by construction. -/
theorem crdNotFoundErr_shape (k : CRDKey) (cn : String) :
    crdNotFoundErr k cn = "Owned CRD " ++ (CRDKey.render k ++ (" for CSV "
      ++ (cn ++ " not found"))) := by
  simp [crdNotFoundErr, String.append_assoc]

/-- Claim C10: when the resource-definition collection holds two or more
definitions with the same key, the map lookup used by createCRDYAMLs yields
the definition appearing latest in the collection's iteration order (the Go
map insert overwrites), the lookup succeeds, and the loop never reports a
not-found error for that key, i.e. no error about the duplicate exists. -/
theorem c10_duplicate_key_last_wins (crds : List CustomResourceDefinition) (k : CRDKey)
    (h : 2 ≤ (crds.filter (fun c => decide (c.key = k))).length) :
    mapLookup (buildCRDMap crds) k = crds.reverse.find? (fun c => decide (c.key = k)) ∧
    (mapLookup (buildCRDMap crds) k).isSome = true ∧
    ∀ (cn : String) (bd : Path) (w : World),
      (createCRDYAMLsLoop (buildCRDMap crds) cn bd [k] w).2 ≠ some (crdNotFoundErr k cn) := by
  have hgen := foldl_mapInsert_lookup k crds []
  have hmem : ∃ c, c ∈ crds.reverse ∧ decide (c.key = k) = true := by
    have hlen : 0 < (crds.filter (fun c => decide (c.key = k))).length := by omega
    rcases List.exists_mem_of_length_pos hlen with ⟨c, hc⟩
    rw [List.mem_filter] at hc
    exact ⟨c, List.mem_reverse.mpr hc.1, hc.2⟩
  have hfind : (crds.reverse.find? (fun c => decide (c.key = k))).isSome = true := by
    rw [List.find?_isSome]
    rcases hmem with ⟨c, hc1, hc2⟩
    exact ⟨c, hc1, hc2⟩
  rcases hf : crds.reverse.find? (fun c => decide (c.key = k)) with _ | c
  · rw [hf] at hfind
    simp at hfind
  · have hlook : mapLookup (buildCRDMap crds) k = some c := by
      rw [buildCRDMap, hgen, hf]
    refine ⟨by rw [hlook, hf], by rw [hlook]; rfl, ?_⟩
    intro cn bd w
    simp only [createCRDYAMLsLoop, hlook]
    rcases hc : createCRDYAML w c bd with ⟨w1, e⟩
    cases e with
    | none => simp [hc, createCRDYAMLsLoop]
    | some e =>
      simp only [hc]
      intro hcontra
      injection hcontra with h2
      have hshape : (createCRDYAML w c bd).2 = some e := by rw [hc]
      rcases createYAML_err_shape w.fs c.goStr c.marshal (bd ++ [c.name ++ ".crd.yaml"]) e
        (by rw [show (createCRDYAML w c bd).2
            = (createYAML w.fs c.goStr c.marshal (bd ++ [c.name ++ ".crd.yaml"])).2 from rfl]
          at hshape; exact hshape) with ⟨s, hs⟩
      rw [hs, crdNotFoundErr_shape] at h2
      exact error_ne_owned _ _ h2

/-- Witness for C10: two definitions with the key of the fixture, the second
one carrying different content. -/
theorem c10_duplicate_key_last_wins_witness :
    mapLookup (buildCRDMap [crdEx, { crdEx with goStr := "crd2", marshal := .ok "CRDRAW2" }]) kEx
      = [crdEx, { crdEx with goStr := "crd2", marshal := .ok "CRDRAW2" }].reverse.find?
          (fun c => decide (c.key = kEx)) ∧
    (mapLookup (buildCRDMap [crdEx, { crdEx with goStr := "crd2", marshal := .ok "CRDRAW2" }])
        kEx).isSome = true ∧
    (createCRDYAMLsLoop
        (buildCRDMap [crdEx, { crdEx with goStr := "crd2", marshal := .ok "CRDRAW2" }])
        "n" ["tmp"] [kEx] wEx).2 ≠ some (crdNotFoundErr kEx "n") := by
  have h := c10_duplicate_key_last_wins
    [crdEx, { crdEx with goStr := "crd2", marshal := .ok "CRDRAW2" }] kEx (by decide)
  exact ⟨h.1, h.2.1, h.2.2 "n" ["tmp"] wEx⟩

/-! Helper lemmas characterizing writeFile and createYAML. -/

theorem mkdir_files (fs : FS) (p : Path) (m : Nat) : ((fs.mkdir p m).1).files = fs.files := by
  unfold FS.mkdir
  split
  · rfl
  · split
    · rfl
    · split <;> rfl

theorem writeFile_fail_fs (fs : FS) (p : Path) (c : String) (m : Nat)
    (h : (fs.writeFile p c m).2 ≠ none) : (fs.writeFile p c m).1 = fs := by
  rcases hw : fs.writeFile p c m with ⟨fs1, e⟩
  rw [hw] at h
  have he : e ≠ none := h
  show fs1 = fs
  unfold FS.writeFile at hw
  split at hw
  · injection hw with h1 h2
    exact h1.symm
  · split at hw
    · split at hw
      · injection hw with h1 h2
        exact absurd h2.symm he
      · injection hw with h1 h2
        exact h1.symm
    · split at hw
      · injection hw with h1 h2
        exact h1.symm
      · split at hw
        · injection hw with h1 h2
          exact absurd h2.symm he
        · injection hw with h1 h2
          exact h1.symm

theorem writeFile_success_char (fs : FS) (p : Path) (c : String) (m : Nat)
    (h : (fs.writeFile p c m).2 = none) :
    ((fs.writeFile p c m).1.files
        = fs.files.map (fun e => if e.1 = p then (p, c, e.2.2) else e)
      ∧ (∃ f, fs.findFile p = some f ∧ modeWritable f.2 = true))
    ∨ ((fs.writeFile p c m).1.files = (p, c, m) :: fs.files ∧ fs.findFile p = none) := by
  rcases hw : fs.writeFile p c m with ⟨fs1, e⟩
  rw [hw] at h
  have he : e = none := h
  subst he
  unfold FS.writeFile at hw
  split at hw
  · injection hw with h1 h2
    exact Option.noConfusion h2
  · split at hw
    · rename_i f hf
      split at hw
      · injection hw with h1 h2
        refine Or.inl ⟨?_, f, hf, by assumption⟩
        rw [← h1]
      · injection hw with h1 h2
        exact Option.noConfusion h2
    · rename_i hf
      split at hw
      · injection hw with h1 h2
        exact Option.noConfusion h2
      · split at hw
        · injection hw with h1 h2
          refine Or.inr ⟨?_, hf⟩
          rw [← h1]
        · injection hw with h1 h2
          exact Option.noConfusion h2

theorem find?_key_map (l : List (Path × String × Nat)) (p : Path) (c : String) (q : Path)
    (h : q ≠ p) :
    (l.map (fun e => if e.1 = p then (p, c, e.2.2) else e)).find? (fun f => decide (f.1 = q))
      = l.find? (fun f => decide (f.1 = q)) := by
  induction l with
  | nil => rfl
  | cons x rest ih =>
    simp only [List.map_cons, List.find?_cons]
    by_cases hx : x.1 = p
    · rw [if_pos hx]
      have hp : (decide (((p : Path), c, x.2.2).1 = q)) = false :=
        decide_eq_false (fun hh => h hh.symm)
      have hx2 : (decide (x.1 = q)) = false :=
        decide_eq_false (by rw [hx]; exact fun hh => h hh.symm)
      rw [hp, hx2]
      exact ih
    · rw [if_neg hx]
      by_cases hq : x.1 = q
      · rw [decide_eq_true hq]
      · rw [decide_eq_false hq]
        exact ih

theorem find?_key_map_self (l : List (Path × String × Nat)) (p : Path) (c : String) :
    ∀ e, l.find? (fun f => decide (f.1 = p)) = some e →
    (l.map (fun x => if x.1 = p then (p, c, x.2.2) else x)).find? (fun f => decide (f.1 = p))
      = some (p, c, e.2.2) := by
  induction l with
  | nil => intro e h; simp at h
  | cons x rest ih =>
    intro e h
    rw [List.find?_cons] at h
    simp only [List.map_cons, List.find?_cons]
    by_cases hx : x.1 = p
    · rw [decide_eq_true hx] at h
      have h2 : some x = some e := h
      injection h2 with h2
      subst h2
      rw [if_pos hx]
      have ht : (decide (((p : Path), c, x.2.2).1 = p)) = true := decide_eq_true rfl
      rw [ht]
    · rw [decide_eq_false hx] at h
      have h2 : List.find? (fun f => decide (f.1 = p)) rest = some e := h
      rw [if_neg hx, decide_eq_false hx]
      exact ih e h2

theorem writeFile_findFile_other (fs : FS) (p : Path) (c : String) (m : Nat) (q : Path)
    (hq : q ≠ p) : ((fs.writeFile p c m).1).findFile q = fs.findFile q := by
  by_cases h : (fs.writeFile p c m).2 = none
  · rcases writeFile_success_char fs p c m h with ⟨hf, -⟩ | ⟨hf, -⟩
    · simp only [FS.findFile, hf]
      rw [find?_key_map _ _ _ _ hq]
    · simp only [FS.findFile, hf]
      rw [List.find?_cons]
      have : ¬ (p = q) := fun hh => hq hh.symm
      simp [this]
  · rw [writeFile_fail_fs fs p c m h]

theorem writeFile_success_findFile_self (fs : FS) (p : Path) (c : String) (m : Nat)
    (h : (fs.writeFile p c m).2 = none) :
    ((fs.writeFile p c m).1).findFile p
      = some (c, (match fs.findFile p with | some f => f.2 | none => m)) := by
  rcases writeFile_success_char fs p c m h with ⟨hf, f, hfind, -⟩ | ⟨hf, hfind⟩
  · rcases hmf : List.find? (fun x => decide (x.1 = p)) fs.files with _ | e
    · exfalso
      simp [FS.findFile, hmf] at hfind
    · simp only [FS.findFile, hf]
      rw [find?_key_map_self _ _ _ e hmf]
      simp only [Option.map_some']
      rw [hmf]
      rfl
  · simp only [FS.findFile, hf]
    rw [List.find?_cons]
    have ht : (decide (((p : Path), c, m).1 = p)) = true := decide_eq_true rfl
    simp only [FS.findFile] at hfind
    rw [ht, hfind]
    rfl

theorem writeFile_fileExists_mono (fs : FS) (p : Path) (c : String) (m : Nat) (q : Path)
    (h : fs.fileExists q = true) : ((fs.writeFile p c m).1).fileExists q = true := by
  by_cases hq : q = p
  · subst hq
    by_cases hs : (fs.writeFile q c m).2 = none
    · simp only [FS.fileExists]
      rw [writeFile_success_findFile_self fs q c m hs]
      rfl
    · rw [writeFile_fail_fs fs q c m hs]
      exact h
  · simp only [FS.fileExists]
    rw [writeFile_findFile_other fs p c m q hq]
    exact h

theorem createYAML_fail_fs (fs : FS) (o : String) (mar : Except String String) (f : Path)
    (h : (createYAML fs o mar f).2 ≠ none) : (createYAML fs o mar f).1 = fs := by
  cases mar with
  | error e => rfl
  | ok raw =>
    rcases hw : fs.writeFile f raw 438 with ⟨fs1, e⟩
    cases e with
    | none => simp [createYAML, hw] at h
    | some e =>
      simp only [createYAML, hw]
      have := writeFile_fail_fs fs f raw 438 (by rw [hw]; simp)
      rw [hw] at this
      exact this

theorem createYAML_success (fs : FS) (o : String) (mar : Except String String) (f : Path)
    (h : (createYAML fs o mar f).2 = none) :
    ∃ raw, mar = Except.ok raw ∧ fs.writeFile f raw 438 = ((createYAML fs o mar f).1, none) := by
  cases mar with
  | error e => simp [createYAML] at h
  | ok raw =>
    refine ⟨raw, rfl, ?_⟩
    rcases hw : fs.writeFile f raw 438 with ⟨fs1, e⟩
    cases e with
    | some e => simp [createYAML, hw] at h
    | none => simp [createYAML, hw]

theorem createYAML_findFile_other (fs : FS) (o : String) (mar : Except String String)
    (f q : Path) (hq : q ≠ f) : ((createYAML fs o mar f).1).findFile q = fs.findFile q := by
  by_cases h : (createYAML fs o mar f).2 = none
  · rcases createYAML_success fs o mar f h with ⟨raw, hmar, hw⟩
    have := writeFile_findFile_other fs f raw 438 q hq
    rw [hw] at this
    exact this
  · rw [createYAML_fail_fs fs o mar f h]

theorem createYAML_fileExists_mono (fs : FS) (o : String) (mar : Except String String)
    (f q : Path) (h : fs.fileExists q = true) :
    ((createYAML fs o mar f).1).fileExists q = true := by
  by_cases hs : (createYAML fs o mar f).2 = none
  · rcases createYAML_success fs o mar f hs with ⟨raw, hmar, hw⟩
    have := writeFile_fileExists_mono fs f raw 438 q h
    rw [hw] at this
    exact this
  · rw [createYAML_fail_fs fs o mar f hs]
    exact h

theorem createYAML_success_written (fs : FS) (o : String) (mar : Except String String)
    (f : Path) (h : (createYAML fs o mar f).2 = none) :
    ((createYAML fs o mar f).1).fileExists f = true := by
  rcases createYAML_success fs o mar f h with ⟨raw, hmar, hw⟩
  have := writeFile_success_findFile_self fs f raw 438 (by rw [hw])
  rw [hw] at this
  simp only [FS.fileExists]
  rw [this]
  rfl

/-- A release descriptor file name never collides with a resource definition
file name: the two fixed suffixes differ. -/
theorem csv_ne_crd (a b : String) : (a ++ ".csv.yaml") ≠ (b ++ ".crd.yaml") := by
  intro h
  have hd : (a ++ ".csv.yaml").data = (b ++ ".crd.yaml").data := by rw [h]
  rw [String.data_append, String.data_append] at hd
  have hlen : (".csv.yaml".data).length = (".crd.yaml".data).length := rfl
  have h2 := (List.append_inj' hd hlen).2
  exact absurd h2 (by decide)

/-- Whether an Except value is a success. -/
def exceptOk (x : Except String String) : Bool :=
  match x with
  | .ok _ => true
  | .error _ => false

/-- A path accepts a truncating write: not a directory, and either an
owner-writable file already sits there or an owner-writable parent directory
exists. -/
def canWrite (fs : FS) (p : Path) : Bool :=
  !fs.dirExists p &&
    (match fs.findFile p with
     | some cm => modeWritable cm.2
     | none =>
       match fs.findDir p.dropLast with
       | some m => modeWritable m
       | none => false)

theorem findDir_congr (fs1 fs2 : FS) (q : Path) (h : fs1.dirs = fs2.dirs) :
    fs1.findDir q = fs2.findDir q := by
  simp [FS.findDir, h]

theorem canWrite_writeFile_success (fs : FS) (p : Path) (c : String) (m : Nat)
    (h : canWrite fs p = true) : (fs.writeFile p c m).2 = none := by
  simp only [canWrite, Bool.and_eq_true, Bool.not_eq_true'] at h
  rcases h with ⟨h1, h2⟩
  unfold FS.writeFile
  rw [if_neg (by rw [h1]; simp)]
  cases hff : fs.findFile p with
  | some cm =>
    rw [hff] at h2
    have h3 : modeWritable cm.2 = true := h2
    simp only [hff, h3, if_true]
  | none =>
    rw [hff] at h2
    cases hfd : fs.findDir p.dropLast with
    | some m2 =>
      rw [hfd] at h2
      have h3 : modeWritable m2 = true := h2
      simp only [hff, hfd, h3, if_true]
    | none =>
      rw [hfd] at h2
      exact absurd h2 (by simp)

theorem canWrite_preserved (fs : FS) (p : Path) (c : String) (q : Path)
    (hq : canWrite fs q = true) : canWrite ((fs.writeFile p c 438).1) q = true := by
  by_cases hs : (fs.writeFile p c 438).2 = none
  · simp only [canWrite, Bool.and_eq_true, Bool.not_eq_true'] at hq ⊢
    rcases hq with ⟨h1, h2⟩
    have hdirs := writeFile_dirs fs p c 438
    refine ⟨?_, ?_⟩
    · rw [dirExists_congr _ fs q hdirs]
      exact h1
    · rw [findDir_congr _ fs q.dropLast hdirs]
      by_cases hqp : q = p
      · subst hqp
        rw [writeFile_success_findFile_self fs q c 438 hs]
        cases hff : fs.findFile q with
        | some cm =>
          rw [hff] at h2
          exact h2
        | none =>
          show modeWritable 438 = true
          decide
      · rw [writeFile_findFile_other fs p c 438 q hqp]
        exact h2
  · rw [writeFile_fail_fs fs p c 438 hs]
    exact hq

theorem createYAML_canWrite (fs : FS) (o : String) (mar : Except String String) (f q : Path)
    (hq : canWrite fs q = true) : canWrite ((createYAML fs o mar f).1) q = true := by
  cases mar with
  | error e => exact hq
  | ok raw =>
    have hp := canWrite_preserved fs f raw q hq
    rcases hw : fs.writeFile f raw 438 with ⟨fs1, e⟩
    rw [hw] at hp
    cases e <;> simp only [createYAML, hw] <;> exact hp

theorem createYAML_success_of (fs : FS) (o : String) (raw : String) (f : Path)
    (hcw : canWrite fs f = true) : (createYAML fs o (Except.ok raw) f).2 = none := by
  have hs := canWrite_writeFile_success fs f raw 438 hcw
  rcases hw : fs.writeFile f raw 438 with ⟨fs1, e⟩
  rw [hw] at hs
  subst hs
  simp [createYAML, hw]

/-! Transports of the createYAML lemmas to createCRDYAML. -/

theorem createCRDYAML_findFile_other (w : World) (crd : CustomResourceDefinition)
    (bd q : Path) (hq : ∀ s, q ≠ bd ++ [s ++ ".crd.yaml"]) :
    ((createCRDYAML w crd bd).1).fs.findFile q = w.fs.findFile q :=
  createYAML_findFile_other w.fs crd.goStr crd.marshal (bd ++ [crd.name ++ ".crd.yaml"]) q
    (hq crd.name)

theorem createCRDYAML_fileExists_mono (w : World) (crd : CustomResourceDefinition)
    (bd q : Path) (h : w.fs.fileExists q = true) :
    ((createCRDYAML w crd bd).1).fs.fileExists q = true :=
  createYAML_fileExists_mono w.fs crd.goStr crd.marshal (bd ++ [crd.name ++ ".crd.yaml"]) q h

theorem createCRDYAML_success_written (w : World) (crd : CustomResourceDefinition) (bd : Path)
    (h : (createCRDYAML w crd bd).2 = none) :
    ((createCRDYAML w crd bd).1).fs.fileExists (bd ++ [crd.name ++ ".crd.yaml"]) = true :=
  createYAML_success_written w.fs crd.goStr crd.marshal (bd ++ [crd.name ++ ".crd.yaml"]) h

theorem createCRDYAML_canWrite (w : World) (crd : CustomResourceDefinition) (bd q : Path)
    (hq : canWrite w.fs q = true) : canWrite ((createCRDYAML w crd bd).1).fs q = true :=
  createYAML_canWrite w.fs crd.goStr crd.marshal (bd ++ [crd.name ++ ".crd.yaml"]) q hq

theorem createCRDYAML_success_of (w : World) (crd : CustomResourceDefinition) (bd : Path)
    (hmar : exceptOk crd.marshal = true)
    (hcw : canWrite w.fs (bd ++ [crd.name ++ ".crd.yaml"]) = true) :
    (createCRDYAML w crd bd).2 = none := by
  cases hm : crd.marshal with
  | error e => rw [hm] at hmar; exact absurd hmar (by simp [exceptOk])
  | ok raw =>
    have := createYAML_success_of w.fs crd.goStr raw (bd ++ [crd.name ++ ".crd.yaml"]) hcw
    show (createYAML w.fs crd.goStr crd.marshal (bd ++ [crd.name ++ ".crd.yaml"])).2 = none
    rw [hm]
    exact this

theorem findFile_congr (fs1 fs2 : FS) (q : Path) (h : fs1.files = fs2.files) :
    fs1.findFile q = fs2.findFile q := by
  simp [FS.findFile, h]

theorem createDir_files (fs : FS) (dir : Path) : ((createDir fs dir).1).files = fs.files := by
  rw [createDir_fs]
  exact mkdir_files fs dir 448

theorem csvPath_ne_crdPath (bd : Path) (cn s : String) :
    bd ++ [cn ++ ".csv.yaml"] ≠ bd ++ [s ++ ".crd.yaml"] := by
  intro h
  have h2 := List.append_cancel_left h
  injection h2 with h3 h4
  exact csv_ne_crd cn s h3

/-- All owned keys of a list resolve and their definition files are present. -/
def allOwnedWritten (M : List (CRDKey × CustomResourceDefinition)) (fs : FS) (bd : Path)
    (ks : List CRDKey) : Bool :=
  ks.all (fun k =>
    match mapLookup M k with
    | none => false
    | some crd => fs.fileExists (bd ++ [crd.name ++ ".crd.yaml"]))

theorem allOwnedWritten_mono (M : List (CRDKey × CustomResourceDefinition)) (bd : Path)
    (ks : List CRDKey) (fs1 fs2 : FS)
    (hmono : ∀ q, fs1.fileExists q = true → fs2.fileExists q = true)
    (h : allOwnedWritten M fs1 bd ks = true) : allOwnedWritten M fs2 bd ks = true := by
  induction ks with
  | nil => rfl
  | cons k ks ih =>
    simp only [allOwnedWritten, List.all_cons, Bool.and_eq_true] at h ⊢
    refine ⟨?_, ih h.2⟩
    cases hm : mapLookup M k with
    | none => rw [hm] at h; exact absurd h.1 (by simp)
    | some crd =>
      rw [hm] at h
      exact hmono _ h.1

theorem loop_cons_none (M : List (CRDKey × CustomResourceDefinition)) (cn : String)
    (bd : Path) (k : CRDKey) (ks : List CRDKey) (w : World) (hm : mapLookup M k = none) :
    createCRDYAMLsLoop M cn bd (k :: ks) w = (w, some (crdNotFoundErr k cn)) := by
  simp only [createCRDYAMLsLoop, hm]

theorem loop_cons_some_err (M : List (CRDKey × CustomResourceDefinition)) (cn : String)
    (bd : Path) (k : CRDKey) (ks : List CRDKey) (w : World) (crd : CustomResourceDefinition)
    (w1 : World) (e : String) (hm : mapLookup M k = some crd)
    (hc : createCRDYAML w crd bd = (w1, some e)) :
    createCRDYAMLsLoop M cn bd (k :: ks) w = (w1, some e) := by
  simp only [createCRDYAMLsLoop, hm, hc]

theorem loop_cons_some_ok (M : List (CRDKey × CustomResourceDefinition)) (cn : String)
    (bd : Path) (k : CRDKey) (ks : List CRDKey) (w : World) (crd : CustomResourceDefinition)
    (w1 : World) (hm : mapLookup M k = some crd) (hc : createCRDYAML w crd bd = (w1, none)) :
    createCRDYAMLsLoop M cn bd (k :: ks) w = createCRDYAMLsLoop M cn bd ks w1 := by
  simp only [createCRDYAMLsLoop, hm, hc]

theorem createCRDYAMLsLoop_findFile_other (M : List (CRDKey × CustomResourceDefinition))
    (cn : String) (bd : Path) : ∀ (ks : List CRDKey) (w : World) (q : Path),
    (∀ s, q ≠ bd ++ [s ++ ".crd.yaml"]) →
    ((createCRDYAMLsLoop M cn bd ks w).1).fs.findFile q = w.fs.findFile q := by
  intro ks
  induction ks with
  | nil => intro w q hq; rfl
  | cons k ks ih =>
    intro w q hq
    simp only [createCRDYAMLsLoop]
    cases hm : mapLookup M k with
    | none => rfl
    | some crd =>
      have hfr := createCRDYAML_findFile_other w crd bd q hq
      rcases hc : createCRDYAML w crd bd with ⟨w1, e⟩
      rw [hc] at hfr
      cases e with
      | some e => simp only [hc]; exact hfr
      | none =>
        simp only [hc]
        rw [ih w1 q hq]
        exact hfr

theorem createCRDYAMLsLoop_fileExists_mono (M : List (CRDKey × CustomResourceDefinition))
    (cn : String) (bd : Path) : ∀ (ks : List CRDKey) (w : World) (q : Path),
    w.fs.fileExists q = true →
    ((createCRDYAMLsLoop M cn bd ks w).1).fs.fileExists q = true := by
  intro ks
  induction ks with
  | nil => intro w q h; exact h
  | cons k ks ih =>
    intro w q h
    simp only [createCRDYAMLsLoop]
    cases hm : mapLookup M k with
    | none => exact h
    | some crd =>
      have hme := createCRDYAML_fileExists_mono w crd bd q h
      rcases hc : createCRDYAML w crd bd with ⟨w1, e⟩
      rw [hc] at hme
      cases e with
      | some e => simp only [hc]; exact hme
      | none => simp only [hc]; exact ih w1 q hme

theorem createCRDYAMLsLoop_success_written (M : List (CRDKey × CustomResourceDefinition))
    (cn : String) (bd : Path) : ∀ (ks : List CRDKey) (w : World),
    (createCRDYAMLsLoop M cn bd ks w).2 = none →
    allOwnedWritten M ((createCRDYAMLsLoop M cn bd ks w).1).fs bd ks = true := by
  intro ks
  induction ks with
  | nil => intro w h; rfl
  | cons k ks ih =>
    intro w h
    cases hm : mapLookup M k with
    | none =>
      rw [loop_cons_none M cn bd k ks w hm] at h
      exact Option.noConfusion (h : some (crdNotFoundErr k cn) = none)
    | some crd =>
      rcases hc : createCRDYAML w crd bd with ⟨w1, e⟩
      cases e with
      | some e =>
        rw [loop_cons_some_err M cn bd k ks w crd w1 e hm hc] at h
        exact Option.noConfusion (h : some e = none)
      | none =>
        rw [loop_cons_some_ok M cn bd k ks w crd w1 hm hc] at h ⊢
        simp only [allOwnedWritten, List.all_cons, Bool.and_eq_true, hm]
        constructor
        · apply createCRDYAMLsLoop_fileExists_mono
          have hwr := createCRDYAML_success_written w crd bd (by rw [hc])
          rw [hc] at hwr
          exact hwr
        · simpa only [allOwnedWritten] using ih w1 h

theorem createCRDYAMLsLoop_first_missing (M : List (CRDKey × CustomResourceDefinition))
    (cn : String) (bd : Path) : ∀ (ks : List CRDKey) (w : World) (k0 : CRDKey),
    ks.find? (fun k => (mapLookup M k).isNone) = some k0 →
    (∀ k ∈ ks, ∀ crd, mapLookup M k = some crd →
        exceptOk crd.marshal = true ∧ canWrite w.fs (bd ++ [crd.name ++ ".crd.yaml"]) = true) →
    (createCRDYAMLsLoop M cn bd ks w).2 = some (crdNotFoundErr k0 cn) := by
  intro ks
  induction ks with
  | nil => intro w k0 hf hOK; simp at hf
  | cons k ks ih =>
    intro w k0 hf hOK
    rw [List.find?_cons] at hf
    cases hm : mapLookup M k with
    | none =>
      rw [hm] at hf
      have hf2 : some k = some k0 := hf
      injection hf2 with hf2
      subst hf2
      rw [loop_cons_none M cn bd k ks w hm]
    | some crd =>
      rw [hm] at hf
      have hf2 : ks.find? (fun k => (mapLookup M k).isNone) = some k0 := hf
      obtain ⟨hmar, hcw⟩ := hOK k (List.mem_cons_self k ks) crd hm
      have hsucc := createCRDYAML_success_of w crd bd hmar hcw
      rcases hc : createCRDYAML w crd bd with ⟨w1, e⟩
      rw [hc] at hsucc
      have he : e = none := hsucc
      subst he
      rw [loop_cons_some_ok M cn bd k ks w crd w1 hm hc]
      apply ih w1 k0 hf2
      intro k2 hk2 crd2 hm2
      obtain ⟨hmar2, hcw2⟩ := hOK k2 (List.mem_cons_of_mem k hk2) crd2 hm2
      refine ⟨hmar2, ?_⟩
      have hpres := createCRDYAML_canWrite w crd bd (bd ++ [crd2.name ++ ".crd.yaml"]) hcw2
      rw [hc] at hpres
      exact hpres

theorem fileExists_congr (fs1 fs2 : FS) (q : Path) (h : fs1.files = fs2.files) :
    fs1.fileExists q = fs2.fileExists q := by
  simp only [FS.fileExists]
  rw [findFile_congr fs1 fs2 q h]

theorem createBundleDir_eq (w : World) (csv : ClusterServiceVersion) (v : String)
    (hv : csv.getVersion = Except.ok v) (hne : v ≠ "") :
    createBundleDir w csv
      = (⟨w.b, (createDir w.fs (w.b.manifestDir ++ [v])).1⟩, w.b.manifestDir ++ [v],
         (createDir w.fs (w.b.manifestDir ++ [v])).2) := by
  simp only [createBundleDir, hv, hne]
  simp

theorem createCRDYAMLs_eq (w : World) (csv : ClusterServiceVersion) (bd : Path)
    (owned req : List CRDKey) (hk : csv.getCustomResourceDefintions = Except.ok (owned, req)) :
    createCRDYAMLs w csv bd
      = createCRDYAMLsLoop (buildCRDMap w.b.singleManifest.customResourceDefinitions) csv.name
          bd owned w := by
  simp only [createCRDYAMLs, hk]

theorem createBundle_eq_dirfail (w : World) (csv : ClusterServiceVersion) (w1 : World)
    (bd : Path) (e : String) (hd : createBundleDir w csv = (w1, bd, some e)) :
    createBundle w csv = (w1, some e) := by
  simp only [createBundle, hd]

theorem createBundle_eq_crdfail (w : World) (csv : ClusterServiceVersion) (w1 : World)
    (bd : Path) (w2 : World) (e : String) (hd : createBundleDir w csv = (w1, bd, none))
    (hc : createCRDYAMLs w1 csv bd = (w2, some e)) : createBundle w csv = (w2, some e) := by
  simp only [createBundle, hd, hc]

theorem createBundle_eq_ok (w : World) (csv : ClusterServiceVersion) (w1 : World) (bd : Path)
    (w2 : World) (hd : createBundleDir w csv = (w1, bd, none))
    (hc : createCRDYAMLs w1 csv bd = (w2, none)) :
    createBundle w csv = createCSVYAML w2 csv bd := by
  simp only [createBundle, hd, hc]

/-- Claim C5: within the materialization of one release, if the release
descriptor file is present after createBundle although it was absent before,
then the owned-definitions step completed first: every owned key resolves and
its definition file is also present in the resulting tree. A fortiori the
descriptor is only ever written after all owned definition files. -/
theorem c5_descriptor_implies_definitions (w : World) (csv : ClusterServiceVersion)
    (v : String) (keys req : List CRDKey)
    (hv : csv.getVersion = Except.ok v) (hne : v ≠ "")
    (hkeys : csv.getCustomResourceDefintions = Except.ok (keys, req))
    (hfresh : w.fs.fileExists ((w.b.manifestDir ++ [v]) ++ [csv.name ++ ".csv.yaml"]) = false)
    (hcsv : ((createBundle w csv).1).fs.fileExists
        ((w.b.manifestDir ++ [v]) ++ [csv.name ++ ".csv.yaml"]) = true) :
    allOwnedWritten (buildCRDMap w.b.singleManifest.customResourceDefinitions)
      ((createBundle w csv).1).fs (w.b.manifestDir ++ [v]) keys = true := by
  have hd := createBundleDir_eq w csv v hv hne
  rcases hcd : createDir w.fs (w.b.manifestDir ++ [v]) with ⟨fs1, e1⟩
  rw [hcd] at hd
  have hfiles1 : fs1.files = w.fs.files := by
    have h0 := createDir_files w.fs (w.b.manifestDir ++ [v])
    rw [hcd] at h0
    exact h0
  cases e1 with
  | some e =>
    have hd2 : createBundleDir w csv
        = (⟨w.b, fs1⟩, w.b.manifestDir ++ [v], some e) := hd
    rw [createBundle_eq_dirfail w csv ⟨w.b, fs1⟩ (w.b.manifestDir ++ [v]) e hd2] at hcsv
    have hx : fs1.fileExists ((w.b.manifestDir ++ [v]) ++ [csv.name ++ ".csv.yaml"])
        = w.fs.fileExists ((w.b.manifestDir ++ [v]) ++ [csv.name ++ ".csv.yaml"]) :=
      fileExists_congr fs1 w.fs _ hfiles1
    rw [hx, hfresh] at hcsv
    exact absurd hcsv (by simp)
  | none =>
    have hd2 : createBundleDir w csv = (⟨w.b, fs1⟩, w.b.manifestDir ++ [v], none) := hd
    have hcy := createCRDYAMLs_eq ⟨w.b, fs1⟩ csv (w.b.manifestDir ++ [v]) keys req hkeys
    rcases hloop : createCRDYAMLsLoop
        (buildCRDMap w.b.singleManifest.customResourceDefinitions) csv.name
        (w.b.manifestDir ++ [v]) keys ⟨w.b, fs1⟩ with ⟨w2, e2⟩
    rw [hloop] at hcy
    cases e2 with
    | some e =>
      rw [createBundle_eq_crdfail w csv ⟨w.b, fs1⟩ (w.b.manifestDir ++ [v]) w2 e hd2 hcy]
        at hcsv
      have hfr : w2.fs.findFile ((w.b.manifestDir ++ [v]) ++ [csv.name ++ ".csv.yaml"])
          = fs1.findFile ((w.b.manifestDir ++ [v]) ++ [csv.name ++ ".csv.yaml"]) := by
        have h0 := createCRDYAMLsLoop_findFile_other
          (buildCRDMap w.b.singleManifest.customResourceDefinitions) csv.name
          (w.b.manifestDir ++ [v]) keys ⟨w.b, fs1⟩
          ((w.b.manifestDir ++ [v]) ++ [csv.name ++ ".csv.yaml"])
          (fun s => csvPath_ne_crdPath (w.b.manifestDir ++ [v]) csv.name s)
        rw [hloop] at h0
        exact h0
      have hx : w2.fs.fileExists ((w.b.manifestDir ++ [v]) ++ [csv.name ++ ".csv.yaml"])
          = w.fs.fileExists ((w.b.manifestDir ++ [v]) ++ [csv.name ++ ".csv.yaml"]) := by
        simp only [FS.fileExists]
        rw [hfr, findFile_congr fs1 w.fs _ hfiles1]
      rw [hx, hfresh] at hcsv
      exact absurd hcsv (by simp)
    | none =>
      rw [createBundle_eq_ok w csv ⟨w.b, fs1⟩ (w.b.manifestDir ++ [v]) w2 hd2 hcy]
      have hall : allOwnedWritten (buildCRDMap w.b.singleManifest.customResourceDefinitions)
          w2.fs (w.b.manifestDir ++ [v]) keys = true := by
        have h0 := createCRDYAMLsLoop_success_written
          (buildCRDMap w.b.singleManifest.customResourceDefinitions) csv.name
          (w.b.manifestDir ++ [v]) keys ⟨w.b, fs1⟩ (by rw [hloop])
        rw [hloop] at h0
        exact h0
      apply allOwnedWritten_mono _ _ _ w2.fs _ ?_ hall
      intro q hq
      exact createYAML_fileExists_mono w2.fs csv.goStr csv.marshal
        ((w.b.manifestDir ++ [v]) ++ [csv.name ++ ".csv.yaml"]) q hq

/-- A builder state after createManifestDir on the etcd fixture, with the
package root present on disk. -/
def wBundle : World :=
  ⟨⟨smEx, ["tmp"], ["tmp", "etcd"], []⟩, ⟨[(["tmp"], 448), (["tmp", "etcd"], 448)], []⟩⟩

/-- Witness for C5 on the etcd fixture release. -/
theorem c5_descriptor_implies_definitions_witness :
    allOwnedWritten (buildCRDMap smEx.customResourceDefinitions)
      ((createBundle wBundle csvEx).1).fs (["tmp", "etcd"] ++ ["0.9.2"]) [kEx] = true :=
  c5_descriptor_implies_definitions wBundle csvEx "0.9.2" [kEx] [] rfl (by decide) rfl
    (by decide) (by decide)

/-- Claim C3: when the first failing owned key of a release is one that is
absent from the package's resource-definition collection (earlier keys
resolve, marshal and write cleanly), the bundle materialization of that
release fails with the error naming that key and the release name, and the
release descriptor file is left exactly as it was (in particular it is not
written). -/
theorem c3_unresolved_reference_aborts (w : World) (csv : ClusterServiceVersion)
    (v : String) (keys req : List CRDKey) (k0 : CRDKey)
    (hv : csv.getVersion = Except.ok v) (hne : v ≠ "")
    (hkeys : csv.getCustomResourceDefintions = Except.ok (keys, req))
    (hdir : (createBundleDir w csv).2.2 = none)
    (hfirst : keys.find? (fun k =>
        (mapLookup (buildCRDMap w.b.singleManifest.customResourceDefinitions) k).isNone)
      = some k0)
    (hOK : ∀ k ∈ keys, ∀ crd,
        mapLookup (buildCRDMap w.b.singleManifest.customResourceDefinitions) k = some crd →
        exceptOk crd.marshal = true ∧
        canWrite ((createBundleDir w csv).1).fs
          ((w.b.manifestDir ++ [v]) ++ [crd.name ++ ".crd.yaml"]) = true) :
    mapLookup (buildCRDMap w.b.singleManifest.customResourceDefinitions) k0 = none ∧
    k0 ∈ keys ∧
    (createBundle w csv).2 = some (crdNotFoundErr k0 csv.name) ∧
    (createBundle w csv).1.fs.fileExists ((w.b.manifestDir ++ [v]) ++ [csv.name ++ ".csv.yaml"])
      = w.fs.fileExists ((w.b.manifestDir ++ [v]) ++ [csv.name ++ ".csv.yaml"]) := by
  have hd := createBundleDir_eq w csv v hv hne
  rcases hcd : createDir w.fs (w.b.manifestDir ++ [v]) with ⟨fs1, e1⟩
  rw [hcd] at hd
  have hfiles1 : fs1.files = w.fs.files := by
    have h0 := createDir_files w.fs (w.b.manifestDir ++ [v])
    rw [hcd] at h0
    exact h0
  rw [hd] at hdir
  have he1 : e1 = none := hdir
  subst he1
  have hd2 : createBundleDir w csv = (⟨w.b, fs1⟩, w.b.manifestDir ++ [v], none) := hd
  have hcy := createCRDYAMLs_eq ⟨w.b, fs1⟩ csv (w.b.manifestDir ++ [v]) keys req hkeys
  have hfm := createCRDYAMLsLoop_first_missing
    (buildCRDMap w.b.singleManifest.customResourceDefinitions) csv.name
    (w.b.manifestDir ++ [v]) keys ⟨w.b, fs1⟩ k0 hfirst ?hok
  case hok =>
    intro k hk crd hm
    obtain ⟨h1, h2⟩ := hOK k hk crd hm
    rw [hd2] at h2
    exact ⟨h1, h2⟩
  rcases hloop : createCRDYAMLsLoop
      (buildCRDMap w.b.singleManifest.customResourceDefinitions) csv.name
      (w.b.manifestDir ++ [v]) keys ⟨w.b, fs1⟩ with ⟨w2, e2⟩
  rw [hloop] at hfm hcy
  have he2 : e2 = some (crdNotFoundErr k0 csv.name) := hfm
  subst he2
  have hb := createBundle_eq_crdfail w csv ⟨w.b, fs1⟩ (w.b.manifestDir ++ [v]) w2
    (crdNotFoundErr k0 csv.name) hd2 hcy
  refine ⟨?_, List.mem_of_find?_eq_some hfirst, ?_, ?_⟩
  · have hp := List.find?_some hfirst
    simpa [Option.isNone_iff_eq_none] using hp
  · rw [hb]
  · rw [hb]
    have hfr : w2.fs.findFile ((w.b.manifestDir ++ [v]) ++ [csv.name ++ ".csv.yaml"])
        = fs1.findFile ((w.b.manifestDir ++ [v]) ++ [csv.name ++ ".csv.yaml"]) := by
      have h0 := createCRDYAMLsLoop_findFile_other
        (buildCRDMap w.b.singleManifest.customResourceDefinitions) csv.name
        (w.b.manifestDir ++ [v]) keys ⟨w.b, fs1⟩
        ((w.b.manifestDir ++ [v]) ++ [csv.name ++ ".csv.yaml"])
        (fun s => csvPath_ne_crdPath (w.b.manifestDir ++ [v]) csv.name s)
      rw [hloop] at h0
      exact h0
    simp only [FS.fileExists]
    rw [hfr, findFile_congr fs1 w.fs _ hfiles1]

/-- An owned key absent from the etcd fixture collection. -/
def kMiss : CRDKey := ⟨"missing.group", "v1", "Missing"⟩

/-- A release owning only the absent key. -/
def csvMiss : ClusterServiceVersion :=
  ⟨"badcsv.v1", "badobj", .ok "0.9.2", .ok ([kMiss], []), .ok "RAW"⟩

/-- Witness for C3 at the release owning an unresolvable key. -/
theorem c3_unresolved_reference_aborts_witness :
    mapLookup (buildCRDMap wBundle.b.singleManifest.customResourceDefinitions) kMiss = none ∧
    kMiss ∈ [kMiss] ∧
    (createBundle wBundle csvMiss).2 = some (crdNotFoundErr kMiss csvMiss.name) ∧
    (createBundle wBundle csvMiss).1.fs.fileExists
        ((wBundle.b.manifestDir ++ ["0.9.2"]) ++ [csvMiss.name ++ ".csv.yaml"])
      = wBundle.fs.fileExists
        ((wBundle.b.manifestDir ++ ["0.9.2"]) ++ [csvMiss.name ++ ".csv.yaml"]) :=
  c3_unresolved_reference_aborts wBundle csvMiss "0.9.2" [kMiss] [] kMiss rfl (by decide) rfl
    (by decide) (by decide)
    (by
      intro k hk crd hm
      simp only [List.mem_singleton] at hk
      subst hk
      have hnone : mapLookup (buildCRDMap wBundle.b.singleManifest.customResourceDefinitions)
          kMiss = none := by decide
      rw [hnone] at hm
      exact Option.noConfusion hm)

end OperatorManifest
